import Mathlib

/-!
Shallow embedding of the budget tracker ledger engine
(`budget_tracker.py`): categories, transactions, filtered listing,
monthly summary, CSV export, and the interactive flows that feed them.

Modelling conventions:
* SQLite `REAL` amounts are modelled as rationals (`ℚ`).
* SQLite `TEXT` dates are modelled as `String`; SQLite compares TEXT
  byte-wise (`memcmp`), which on UTF-8 data is the character-wise
  lexicographic order on code points, embedded here as the executable
  comparison `strLtB` / `strLeB`.
* Row ids are integers assigned from an explicit monotone counter,
  mirroring `INTEGER PRIMARY KEY AUTOINCREMENT`.
* `PRAGMA foreign_keys = ON` is in force, so inserts check the category
  reference and `ON DELETE SET NULL` fires on category deletion.
* Python `str.strip` is modelled on ASCII whitespace.
-/

namespace BudgetTracker

/-! ### Byte-wise TEXT comparison (SQLite memcmp order) -/

/-- Code-point comparison of two characters. -/
def charLtB (c₁ c₂ : Char) : Bool := c₁.toNat < c₂.toNat

/-- Lexicographic (memcmp) strict comparison of two character lists. -/
def listLtB : List Char → List Char → Bool
  | [], [] => false
  | [], _ :: _ => true
  | _ :: _, [] => false
  | c₁ :: l₁, c₂ :: l₂ => charLtB c₁ c₂ || (c₁ = c₂ && listLtB l₁ l₂)

/-- SQLite TEXT `<`. -/
def strLtB (s₁ s₂ : String) : Bool := listLtB s₁.data s₂.data

/-- SQLite TEXT `<=` (total order: `s₁ ≤ s₂` iff not `s₂ < s₁`). -/
def strLeB (s₁ s₂ : String) : Bool := !strLtB s₂ s₁

/-- Python `str.strip()`: drop leading and trailing whitespace. -/
def pyStrip (s : String) : String :=
  ⟨((s.data.dropWhile Char.isWhitespace).reverse.dropWhile Char.isWhitespace).reverse⟩

/-- The `type` column, constrained by `CHECK(type IN (income, expense))`. -/
inductive TxnType where
  | income
  | expense
deriving DecidableEq, Repr

/-- A row of the `categories` table. -/
structure Category where
  id : Int
  name : String
deriving DecidableEq, Repr

/-- A row of the `transactions` table, in the column order
`id, date, amount, description, category_id, type` used by the SELECTs. -/
structure Txn where
  id : Int
  date : String
  amount : ℚ
  description : String
  category_id : Option Int
  type : TxnType
deriving DecidableEq, Repr

/-- A table definition: the list of column/constraint clauses of its DDL. -/
abbrev TableDef := List String

/-- The DDL clauses of the `categories` table (lines 53-57). -/
def categoriesTableDef : TableDef :=
  ["id INTEGER PRIMARY KEY AUTOINCREMENT", "name TEXT UNIQUE NOT NULL"]

/-- The DDL clauses of the `transactions` table (lines 61-69). -/
def transactionsTableDef : TableDef :=
  ["id INTEGER PRIMARY KEY AUTOINCREMENT", "date TEXT NOT NULL",
   "amount REAL NOT NULL", "description TEXT", "category_id INTEGER",
   "type TEXT NOT NULL CHECK type IN income, expense",
   "FOREIGN KEY category_id REFERENCES categories id ON DELETE SET NULL"]

/-- The persisted store: the two table definitions (present or absent) and
their rows, plus the auto-increment counters. -/
structure BudgetDB where
  categoriesDef : Option TableDef
  transactionsDef : Option TableDef
  categories : List Category
  transactions : List Txn
  nextCategoryId : Int
  nextTxnId : Int
deriving DecidableEq, Repr

/-- `sqlite3.IntegrityError`: unique-name violation or foreign-key violation. -/
inductive DBError where
  | integrityError
deriving DecidableEq, Repr

/-- `BudgetDB._initialize_schema` (lines 48-72): `CREATE TABLE IF NOT EXISTS`
for both tables — an existing definition is kept, a missing one is created. -/
def initialize_schema (db : BudgetDB) : BudgetDB :=
  { db with
    categoriesDef := some (db.categoriesDef.getD categoriesTableDef),
    transactionsDef := some (db.transactionsDef.getD transactionsTableDef) }

/-- `BudgetDB.add_category` (lines 75-80): INSERT of the stripped name; the
UNIQUE constraint on `name` raises `IntegrityError` on a duplicate, leaving
the store unchanged. -/
def add_category (db : BudgetDB) (name : String) : Except DBError Int × BudgetDB :=
  if db.categories.any (fun c => c.name = pyStrip name) then
    (.error .integrityError, db)
  else
    (.ok db.nextCategoryId,
     { db with
       categories := db.categories ++ [⟨db.nextCategoryId, pyStrip name⟩],
       nextCategoryId := db.nextCategoryId + 1 })

/-- The `ON DELETE SET NULL` action on one transaction row. -/
def clearCategoryRef (cid : Int) (t : Txn) : Txn :=
  if t.category_id = some cid then { t with category_id := none } else t

/-- `BudgetDB.delete_category` (lines 82-87): DELETE by id; with
`PRAGMA foreign_keys = ON` the declared `ON DELETE SET NULL` clears the
reference on every transaction that pointed at the deleted row. Returns
whether a row was removed (`cur.rowcount > 0`). -/
def delete_category (db : BudgetDB) (category_id : Int) : Bool × BudgetDB :=
  if db.categories.any (fun c => c.id = category_id) then
    (true,
     { db with
       categories := db.categories.filter (fun c => c.id ≠ category_id),
       transactions := db.transactions.map (clearCategoryRef category_id) })
  else (false, db)

/-- The `ORDER BY name` relation of `list_categories`. -/
def catNameLE (c₁ c₂ : Category) : Prop := strLeB c₁.name c₂.name = true

instance catNameLE.decRel : DecidableRel catNameLE := fun _ _ =>
  inferInstanceAs (Decidable (_ = _))

/-- `BudgetDB.list_categories` (lines 89-93): `SELECT id, name ... ORDER BY name`. -/
def list_categories (db : BudgetDB) : List Category :=
  List.insertionSort catNameLE db.categories

/-- Foreign-key check performed by SQLite on INSERT when
`PRAGMA foreign_keys = ON`: a null reference is fine, a non-null one must
name an existing category row. -/
def validCategoryRef (db : BudgetDB) : Option Int → Bool
  | none => true
  | some cid => db.categories.any (fun c => c.id = cid)

/-- `BudgetDB.add_transaction` (lines 96-111): INSERT of the row (with the
stripped description); a dangling category reference raises
`IntegrityError` and leaves the store unchanged. -/
def add_transaction (db : BudgetDB) (date : String) (amount : ℚ)
    (description : String) (category_id : Option Int) (txn_type : TxnType) :
    Except DBError Int × BudgetDB :=
  if validCategoryRef db category_id then
    (.ok db.nextTxnId,
     { db with
       transactions := db.transactions ++
         [⟨db.nextTxnId, date, amount, pyStrip description, category_id, txn_type⟩],
       nextTxnId := db.nextTxnId + 1 })
  else (.error .integrityError, db)

/-- `BudgetDB.delete_transaction` (lines 113-118). -/
def delete_transaction (db : BudgetDB) (txn_id : Int) : Bool × BudgetDB :=
  if db.transactions.any (fun t => t.id = txn_id) then
    (true, { db with transactions := db.transactions.filter (fun t => t.id ≠ txn_id) })
  else (false, db)

/-- The `category_id = ?` clause of `list_transactions` (lines 130-132).
Python truthiness: `if category_id:` skips it for `None` and for `0`. -/
def catClause (category_id : Option Int) (t : Txn) : Bool :=
  match category_id with
  | some cid => if cid ≠ 0 then decide (t.category_id = some cid) else true
  | none => true

/-- The `date >= ?` clause (lines 133-135); `if start_date:` skips it for
`None` and for `""`. -/
def startClause (start_date : Option String) (t : Txn) : Bool :=
  match start_date with
  | some s => if s ≠ "" then strLeB s t.date else true
  | none => true

/-- The `date <= ?` clause (lines 136-138); `if end_date:` skips it for
`None` and for `""`. -/
def endClause (end_date : Option String) (t : Txn) : Bool :=
  match end_date with
  | some e => if e ≠ "" then strLeB t.date e else true
  | none => true

/-- The WHERE clause assembled by `list_transactions` (lines 128-140):
the conjunction of the clauses that survived truthiness. -/
def rowFilter (category_id : Option Int) (start_date end_date : Option String)
    (t : Txn) : Bool :=
  catClause category_id t && startClause start_date t && endClause end_date t

/-- `ORDER BY date DESC, id DESC` (line 141): `t₁` sorts no later than `t₂`. -/
def txnRecencyLE (t₁ t₂ : Txn) : Prop :=
  strLtB t₂.date t₁.date = true ∨ (t₂.date = t₁.date ∧ t₂.id ≤ t₁.id)

instance txnRecencyLE.decRel : DecidableRel txnRecencyLE := fun _ _ =>
  inferInstanceAs (Decidable (_ ∨ _ ∧ _))

/-- `BudgetDB.list_transactions` (lines 120-144): filter by the assembled
WHERE clause, then `ORDER BY date DESC, id DESC`. -/
def list_transactions (db : BudgetDB) (category_id : Option Int)
    (start_date end_date : Option String) : List Txn :=
  List.insertionSort txnRecencyLE
    (db.transactions.filter (rowFilter category_id start_date end_date))

/-! ### Python decimal formatting

`f"{n:04d}"` / `f"{n:02d}"`: the decimal digits of `n`, zero-padded on the
left up to the requested width (never truncated: a number needing more
digits than the width gets them all, as `f"{10000:04d}"` shows). -/

/-- The character of one decimal digit. -/
def digitChar (d : Nat) : Char :=
  match d with
  | 0 => '0' | 1 => '1' | 2 => '2' | 3 => '3' | 4 => '4'
  | 5 => '5' | 6 => '6' | 7 => '7' | 8 => '8' | _ => '9'

/-- The `w` low decimal digits of `n`, most significant first (equals the
zero-padded decimal representation of `n` whenever `n < 10 ^ w`). -/
def padDigits : Nat → Nat → List Char
  | 0, _ => []
  | w + 1, n => digitChar (n / 10 ^ w) :: padDigits w (n % 10 ^ w)

/-- Number of decimal digits, fuel-driven so that it evaluates by `decide`. -/
def decimalWidthGo : Nat → Nat → Nat
  | 0, _ => 1
  | fuel + 1, n => if n < 10 then 1 else decimalWidthGo fuel (n / 10) + 1

/-- Number of decimal digits of `n` (`1` for `0`). -/
def decimalWidth (n : Nat) : Nat := decimalWidthGo n n

/-- Python `f"{n:0wd}"` for an int `n`: zero-padded decimal of total width
`w` (sign included), wider if the number needs it. -/
def pyZeroPad (w : Nat) (n : Int) : String :=
  if n < 0 then
    "-" ++ ⟨padDigits (max (w - 1) (decimalWidth n.natAbs)) n.natAbs⟩
  else ⟨padDigits (max w (decimalWidth n.natAbs)) n.natAbs⟩

/-! ### Calendar dates and `strptime` -/

/-- Gregorian leap-year test, as `datetime` implements it. -/
def isLeapYear (y : Nat) : Bool := y % 4 = 0 && (y % 100 ≠ 0 || y % 400 = 0)

/-- Length of a month, as `datetime` validates it. -/
def daysInMonth (y m : Nat) : Nat :=
  if m = 2 then (if isLeapYear y then 29 else 28)
  else if m = 4 || m = 6 || m = 9 || m = 11 then 30
  else 31

/-- A parsed calendar date. -/
structure ParsedDate where
  year : Nat
  month : Nat
  day : Nat
deriving DecidableEq, Repr

/-- Numeric value of a string of decimal digits, most significant first. -/
def digitsVal (l : List Char) : Nat := l.foldl (fun a c => 10 * a + (c.toNat - 48)) 0

/-- Split a character list at every occurrence of `sep`. -/
def splitCharsAux (sep : Char) : List Char → List Char → List (List Char)
  | [], acc => [acc.reverse]
  | c :: rest, acc =>
    if c = sep then acc.reverse :: splitCharsAux sep rest []
    else splitCharsAux sep rest (c :: acc)

/-- All maximal `sep`-free fields of `l`, in order. -/
def splitChars (sep : Char) (l : List Char) : List (List Char) := splitCharsAux sep l []

/-- Models `datetime.strptime(date_str, "%Y-%m-%d")` followed by the
`datetime.date` constructor checks: `%Y` matches exactly four digits,
`%m` one or two digits with value 1..12, `%d` one or two digits with
value 1..31, nothing may remain, the year is at least `MINYEAR = 1` and
the day must exist in the month. (Digits are modelled as ASCII digits.) -/
def parseDate (s : String) : Option ParsedDate :=
  match splitChars '-' s.data with
  | [ys, ms, ds] =>
    if ys.length = 4 && ys.all Char.isDigit
        && (ms.length = 1 || ms.length = 2) && ms.all Char.isDigit
        && (ds.length = 1 || ds.length = 2) && ds.all Char.isDigit then
      let y := digitsVal ys
      let m := digitsVal ms
      let d := digitsVal ds
      if 1 ≤ y && 1 ≤ m && m ≤ 12 && 1 ≤ d && d ≤ 31 && d ≤ daysInMonth y m then
        some ⟨y, m, d⟩
      else none
    else none
  | _ => none

/-- `datetime.date.isoformat`: `YYYY-MM-DD` with zero padding. -/
def ParsedDate.isoformat (d : ParsedDate) : String :=
  pyZeroPad 4 (d.year : Int) ++ "-" ++ pyZeroPad 2 (d.month : Int) ++ "-" ++
    pyZeroPad 2 (d.day : Int)

/-! ### Monthly summary (lines 146-166) -/

/-- `start` of the month interval (line 148): `f"{year:04d}-{month:02d}-01"`. -/
def monthStart (year month : Int) : String :=
  pyZeroPad 4 year ++ "-" ++ pyZeroPad 2 month ++ "-01"

/-- `end` of the month interval (lines 150-154): the first of the next
month, rolling `month = 12` over to `year + 1, 1`. -/
def monthEnd (year month : Int) : String :=
  if month = 12 then monthStart (year + 1) 1 else monthStart year (month + 1)

/-- The WHERE clause of the summary query (line 161):
`t.date >= start AND t.date < end`, on TEXT. -/
def inMonthRange (year month : Int) (date : String) : Bool :=
  strLeB (monthStart year month) date && strLtB date (monthEnd year month)

/-- The transactions the summary query aggregates: exactly the rows
passing the date-range WHERE clause. -/
def monthTxns (db : BudgetDB) (year month : Int) : List Txn :=
  db.transactions.filter (fun t => inMonthRange year month t.date)

/-- `LEFT JOIN categories c ON t.category_id = c.id` (line 160), projected
to `c.name`: `none` when the reference is null or matches no category row. -/
def resolvedName (db : BudgetDB) (t : Txn) : Option String :=
  t.category_id.bind fun cid =>
    (db.categories.find? (fun c => c.id = cid)).map Category.name

/-- One result row of `monthly_summary`: `(c.name, income_total, expense_total)`. -/
structure SummaryRow where
  name : Option String
  income_total : ℚ
  expense_total : ℚ
deriving DecidableEq, Repr

/-- `SUM(CASE WHEN t.type = ty THEN t.amount ELSE 0 END)` over the rows of
one `GROUP BY c.name` group (lines 156-158). -/
def groupTotal (ty : TxnType) (db : BudgetDB) (txs : List Txn) (k : Option String) : ℚ :=
  ((txs.filter fun t => decide (resolvedName db t = k) && decide (t.type = ty)).map
    Txn.amount).sum

/-- `BudgetDB.monthly_summary` (lines 146-166): filter the month's rows,
group them by resolved category name, and total income and expense per
group. -/
def monthly_summary (db : BudgetDB) (year month : Int) : List SummaryRow :=
  let txs := monthTxns db year month
  ((txs.map (resolvedName db)).dedup).map fun k =>
    ⟨k, groupTotal .income db txs k, groupTotal .expense db txs k⟩

/-! ### CSV export (lines 168-180) -/

/-- The fixed header row written at line 179. -/
def csvHeader : List String := ["ID", "Date", "Amount", "Description", "CategoryID", "Type"]

/-- `BudgetDB.export_to_csv` (lines 168-180): the produced file, as the
header row followed by the raw rows handed to `csv.writerows` — exactly
the tuples `list_transactions` returned, in their order. -/
def export_to_csv (db : BudgetDB) (category_id : Option Int)
    (start_date end_date : Option String) : List String × List Txn :=
  (csvHeader, list_transactions db category_id start_date end_date)

/-! ### Interactive flows (the signed-input path, lines 246-276) -/

/-- Failures reported by `add_transaction_flow`. -/
inductive FlowError where
  | invalidDate
  | invalidCategoryRef
deriving DecidableEq, Repr

/-- `add_transaction_flow` (lines 246-276) with the prompts replaced by
arguments: validate the date first (returning with the store untouched on
failure), classify the signed amount as income/expense by its sign, store
its absolute value, and insert via `add_transaction`. -/
def add_transaction_flow (db : BudgetDB) (date_str : String) (value : ℚ)
    (description : String) (category_id : Option Int) :
    Except FlowError Int × BudgetDB :=
  match parseDate date_str with
  | none => (.error .invalidDate, db)
  | some d =>
    let txn_type : TxnType := if 0 ≤ value then .income else .expense
    let abs_amount := |value|
    let r := add_transaction db d.isoformat abs_amount description category_id txn_type
    (r.1.mapError fun _ => FlowError.invalidCategoryRef, r.2)

/-! ### Date strings -/

/-- The character list of a zero-padded ISO date `YYYY-MM-DD`. -/
def dateData (y m d : Nat) : List Char :=
  padDigits 4 y ++ '-' :: (padDigits 2 m ++ '-' :: padDigits 2 d)

/-! ### The specification's calendar interval -/

/-- Calendar order on `(year, month, day)` triples: lexicographic. -/
def dateTripleLT (a b : Nat × Nat × Nat) : Prop :=
  a.1 < b.1 ∨ (a.1 = b.1 ∧ (a.2.1 < b.2.1 ∨ (a.2.1 = b.2.1 ∧ a.2.2 < b.2.2)))

instance dateTripleLT.decRel : DecidableRel dateTripleLT := fun _ _ =>
  inferInstanceAs (Decidable (_ ∨ _ ∧ _))

/-- Non-strict calendar order on `(year, month, day)` triples. -/
def dateTripleLE (a b : Nat × Nat × Nat) : Prop := dateTripleLT a b ∨ a = b

/-- The specification's half-open month interval: a calendar date belongs
to month `(year, month)` iff `year-month-01 ≤ date < first of next month`,
where month 12 rolls over to January of `year + 1`. -/
def inMonthInterval (year month : Nat) (d : Nat × Nat × Nat) : Prop :=
  dateTripleLE (year, month, 1) d ∧
    dateTripleLT d (if month = 12 then (year + 1, 1, 1) else (year, month + 1, 1))

/-- The filter semantics as the specification words them: the conjunction
of the supplied filters — exact category match, inclusive lower and upper
date bounds — with an absent filter imposing no constraint. -/
def specFilter (category_id : Option Int) (start_date end_date : Option String)
    (t : Txn) : Prop :=
  (∀ cid, category_id = some cid → t.category_id = some cid) ∧
  (∀ s, start_date = some s → strLeB s t.date = true) ∧
  (∀ e, end_date = some e → strLeB t.date e = true)

/-- A store holding one transaction on the last day of year 9999. -/
def c1OverflowDb : BudgetDB :=
  ⟨some categoriesTableDef, some transactionsTableDef, [],
   [⟨1, "9999-12-31", 5, "year end", none, .expense⟩], 1, 2⟩

/-- A store with one category and two transactions referencing it or not. -/
def c2Db : BudgetDB :=
  ⟨some categoriesTableDef, some transactionsTableDef, [⟨1, "Food"⟩],
   [⟨1, "2024-03-15", 5, "groceries", some 1, .expense⟩,
    ⟨2, "2024-03-16", 3, "salary", none, .income⟩], 2, 3⟩

/-- A store exercising the degenerate filters. -/
def c4Db : BudgetDB :=
  ⟨some categoriesTableDef, some transactionsTableDef, [⟨1, "Food"⟩],
   [⟨1, "2024-03-15", 5, "groceries", some 1, .expense⟩], 2, 2⟩

/-- A fresh, empty store for the category workflow. -/
def c6Db : BudgetDB :=
  ⟨some categoriesTableDef, some transactionsTableDef, [], [], 1, 1⟩

/-- A store with one category and no transactions yet. -/
def c7Db : BudgetDB :=
  ⟨some categoriesTableDef, some transactionsTableDef, [⟨1, "Food"⟩], [], 2, 1⟩

/-! ### Order facts about the byte-wise TEXT comparison -/

theorem char_eq_iff_toNat {c₁ c₂ : Char} : c₁ = c₂ ↔ c₁.toNat = c₂.toNat :=
  ⟨fun h => h ▸ rfl, fun h => Char.eq_of_val_eq (UInt32.eq_of_val_eq (Fin.ext h))⟩

theorem charLtB_eq_true_iff {c₁ c₂ : Char} : charLtB c₁ c₂ = true ↔ c₁.toNat < c₂.toNat := by
  simp [charLtB]

theorem listLtB_irrefl : ∀ l : List Char, listLtB l l = false
  | [] => rfl
  | c :: l => by simp [listLtB, charLtB, listLtB_irrefl l]

theorem listLtB_asymm : ∀ l₁ l₂ : List Char, listLtB l₁ l₂ = true → listLtB l₂ l₁ = false
  | [], [], h => by simp [listLtB] at h
  | [], _ :: _, _ => rfl
  | _ :: _, [], h => by simp [listLtB] at h
  | c₁ :: l₁, c₂ :: l₂, h => by
    rw [Bool.eq_false_iff]
    intro h'
    simp only [listLtB, Bool.or_eq_true, Bool.and_eq_true, decide_eq_true_eq,
      charLtB_eq_true_iff, char_eq_iff_toNat] at h h'
    rcases h with h | ⟨he, hr⟩ <;> rcases h' with h' | ⟨he', hr'⟩
    · omega
    · omega
    · omega
    · rw [listLtB_asymm l₁ l₂ hr] at hr'
      exact Bool.false_ne_true hr'

theorem listLtB_trans :
    ∀ l₁ l₂ l₃ : List Char,
      listLtB l₁ l₂ = true → listLtB l₂ l₃ = true → listLtB l₁ l₃ = true
  | [], [], _, h₁, _ => by simp [listLtB] at h₁
  | [], _ :: _, [], _, h₂ => by simp [listLtB] at h₂
  | [], _ :: _, _ :: _, _, _ => rfl
  | _ :: _, [], _, h₁, _ => by simp [listLtB] at h₁
  | _ :: _, _ :: _, [], _, h₂ => by simp [listLtB] at h₂
  | c₁ :: l₁, c₂ :: l₂, c₃ :: l₃, h₁, h₂ => by
    simp only [listLtB, Bool.or_eq_true, Bool.and_eq_true, decide_eq_true_eq,
      charLtB_eq_true_iff, char_eq_iff_toNat] at h₁ h₂ ⊢
    rcases h₁ with h₁ | ⟨he₁, hr₁⟩ <;> rcases h₂ with h₂ | ⟨he₂, hr₂⟩
    · exact .inl (by omega)
    · exact .inl (by omega)
    · exact .inl (by omega)
    · exact .inr ⟨by omega, listLtB_trans l₁ l₂ l₃ hr₁ hr₂⟩

theorem listLtB_connex :
    ∀ l₁ l₂ : List Char, listLtB l₁ l₂ = false → listLtB l₂ l₁ = false → l₁ = l₂
  | [], [], _, _ => rfl
  | [], _ :: _, h₁, _ => by simp [listLtB] at h₁
  | _ :: _, [], _, h₂ => by simp [listLtB] at h₂
  | c₁ :: l₁, c₂ :: l₂, h₁, h₂ => by
    simp only [listLtB, charLtB, Bool.or_eq_false_iff, Bool.and_eq_false_iff,
      decide_eq_false_iff_not, char_eq_iff_toNat] at h₁ h₂
    obtain ⟨ha₁, hb₁⟩ := h₁
    obtain ⟨ha₂, hb₂⟩ := h₂
    have he : c₁.toNat = c₂.toNat := by omega
    have hl : l₁ = l₂ :=
      listLtB_connex l₁ l₂ (hb₁.resolve_left (not_not_intro he))
        (hb₂.resolve_left (not_not_intro he.symm))
    rw [char_eq_iff_toNat.mpr he, hl]

theorem listLtB_trichotomy (l₁ l₂ : List Char) :
    listLtB l₁ l₂ = true ∨ l₁ = l₂ ∨ listLtB l₂ l₁ = true := by
  rcases h₁ : listLtB l₁ l₂ with _ | _
  · rcases h₂ : listLtB l₂ l₁ with _ | _
    · exact .inr (.inl (listLtB_connex l₁ l₂ h₁ h₂))
    · exact .inr (.inr rfl)
  · exact .inl rfl

theorem strLeB_eq_true_iff {s₁ s₂ : String} :
    strLeB s₁ s₂ = true ↔ (strLtB s₁ s₂ = true ∨ s₁ = s₂) := by
  unfold strLeB strLtB
  constructor
  · intro h
    rw [Bool.not_eq_true'] at h
    rcases listLtB_trichotomy s₁.data s₂.data with h' | h' | h'
    · exact .inl h'
    · exact .inr (congrArg String.mk (by simpa using h'))
    · rw [h'] at h
      exact absurd h (by simp)
  · intro h
    rw [Bool.not_eq_true']
    rcases h with h | h
    · exact listLtB_asymm _ _ h
    · rw [h]
      exact listLtB_irrefl _

theorem strLeB_total (s₁ s₂ : String) : strLeB s₁ s₂ = true ∨ strLeB s₂ s₁ = true := by
  rcases listLtB_trichotomy s₁.data s₂.data with h | h | h
  · exact .inl (strLeB_eq_true_iff.mpr (.inl h))
  · exact .inl (strLeB_eq_true_iff.mpr (.inr (congrArg String.mk (by simpa using h))))
  · exact .inr (strLeB_eq_true_iff.mpr (.inl h))

/-! ### Decimal formatting facts -/

theorem padDigits_length : ∀ (w n : Nat), (padDigits w n).length = w
  | 0, _ => rfl
  | w + 1, n => by simp [padDigits, padDigits_length w]

theorem digitChar_toNat : ∀ d : Nat, d < 10 → (digitChar d).toNat = 48 + d := by decide

theorem div_lt_imp {E a b : Nat} (hE : 0 < E) (h : a / E < b / E) : a < b := by
  have ha := Nat.div_add_mod a E
  have hb := Nat.div_add_mod b E
  have hma : a % E < E := Nat.mod_lt _ hE
  have key : E * (a / E) + E ≤ E * (b / E) := by
    calc E * (a / E) + E = E * (a / E + 1) := by ring
    _ ≤ E * (b / E) := Nat.mul_le_mul_left E h
  omega

theorem nat_lt_iff_divmod {E a b : Nat} (hE : 0 < E) :
    a < b ↔ (a / E < b / E ∨ (a / E = b / E ∧ a % E < b % E)) := by
  constructor
  · intro hab
    rcases Nat.lt_trichotomy (a / E) (b / E) with h | h | h
    · exact .inl h
    · have ha := Nat.div_add_mod a E
      have hb := Nat.div_add_mod b E
      rw [h] at ha
      exact .inr ⟨h, by omega⟩
    · exact absurd (div_lt_imp hE h) (by omega)
  · intro h
    rcases h with h | ⟨h, hm⟩
    · exact div_lt_imp hE h
    · have ha := Nat.div_add_mod a E
      have hb := Nat.div_add_mod b E
      rw [h] at ha
      omega

theorem nat_eq_iff_divmod {E a b : Nat} :
    a = b ↔ (a / E = b / E ∧ a % E = b % E) := by
  constructor
  · rintro rfl
    exact ⟨rfl, rfl⟩
  · rintro ⟨h₁, h₂⟩
    have ha := Nat.div_add_mod a E
    have hb := Nat.div_add_mod b E
    rw [h₁, h₂] at ha
    omega

theorem listLtB_padDigits_append :
    ∀ (w a b : Nat) (s t : List Char), a < 10 ^ w → b < 10 ^ w →
      (listLtB (padDigits w a ++ s) (padDigits w b ++ t) = true ↔
        (a < b ∨ (a = b ∧ listLtB s t = true)))
  | 0, a, b, s, t, ha, hb => by
    have ha0 : a = 0 := by simpa using ha
    have hb0 : b = 0 := by simpa using hb
    subst ha0
    subst hb0
    simp [padDigits]
  | w + 1, a, b, s, t, ha, hb => by
    have hE : 0 < 10 ^ w := pow_pos (by norm_num) w
    have hqa : a / 10 ^ w < 10 := by
      rw [Nat.div_lt_iff_lt_mul hE]
      rw [pow_succ] at ha
      omega
    have hqb : b / 10 ^ w < 10 := by
      rw [Nat.div_lt_iff_lt_mul hE]
      rw [pow_succ] at hb
      omega
    have hra : a % 10 ^ w < 10 ^ w := Nat.mod_lt _ hE
    have hrb : b % 10 ^ w < 10 ^ w := Nat.mod_lt _ hE
    simp only [padDigits, List.cons_append, listLtB, Bool.or_eq_true, Bool.and_eq_true,
      decide_eq_true_eq, charLtB_eq_true_iff, char_eq_iff_toNat, List.append_eq,
      digitChar_toNat _ hqa, digitChar_toNat _ hqb,
      listLtB_padDigits_append w (a % 10 ^ w) (b % 10 ^ w) s t hra hrb]
    rw [@nat_lt_iff_divmod (10 ^ w) a b hE, @nat_eq_iff_divmod (10 ^ w) a b]
    constructor
    · rintro (h | ⟨he, h | ⟨he', hx⟩⟩)
      · exact .inl (.inl (by omega))
      · exact .inl (.inr ⟨by omega, h⟩)
      · exact .inr ⟨⟨by omega, he'⟩, hx⟩
    · rintro ((h | ⟨he, h⟩) | ⟨⟨he, he'⟩, hx⟩)
      · exact .inl (by omega)
      · exact .inr ⟨by omega, .inl h⟩
      · exact .inr ⟨by omega, .inr ⟨he', hx⟩⟩

theorem padDigits_append_inj {w a b : Nat} {s t : List Char} (ha : a < 10 ^ w)
    (hb : b < 10 ^ w) (h : padDigits w a ++ s = padDigits w b ++ t) : a = b ∧ s = t := by
  have hlen : (padDigits w a).length = (padDigits w b).length := by
    rw [padDigits_length, padDigits_length]
  obtain ⟨h₁, h₂⟩ := List.append_inj h hlen
  refine ⟨?_, h₂⟩
  by_contra hne
  rcases Nat.lt_or_ge a b with hlt | hge
  · have hx := (listLtB_padDigits_append w a b [] [] ha hb).mpr (.inl hlt)
    rw [h₁, listLtB_irrefl] at hx
    exact Bool.false_ne_true hx
  · have hlt : b < a := by omega
    have hx := (listLtB_padDigits_append w b a [] [] hb ha).mpr (.inl hlt)
    rw [h₁, listLtB_irrefl] at hx
    exact Bool.false_ne_true hx

theorem decimalWidthGo_pos : ∀ fuel n : Nat, 1 ≤ decimalWidthGo fuel n
  | 0, _ => le_refl 1
  | fuel + 1, n => by
    unfold decimalWidthGo
    split
    · exact le_refl 1
    · omega

theorem decimalWidthGo_le_iff :
    ∀ fuel n : Nat, n ≤ fuel → ∀ w : Nat, 1 ≤ w → (decimalWidthGo fuel n ≤ w ↔ n < 10 ^ w)
  | 0, n, hn, w, hw => by
    have : n = 0 := by omega
    subst this
    simp only [decimalWidthGo]
    constructor
    · intro _
      exact pow_pos (by norm_num) w
    · intro _
      exact hw
  | fuel + 1, n, hn, w, hw => by
    unfold decimalWidthGo
    split
    · rename_i h10
      constructor
      · intro _
        calc n < 10 ^ 1 := by omega
        _ ≤ 10 ^ w := Nat.pow_le_pow_right (by norm_num) hw
      · intro _
        exact hw
    · rename_i h10
      push_neg at h10
      rcases Nat.lt_or_ge w 2 with hw2 | hw2
      · have hw1 : w = 1 := by omega
        subst hw1
        constructor
        · intro hle
          have := decimalWidthGo_pos fuel (n / 10)
          omega
        · intro hlt
          omega
      · have hfuel : n / 10 ≤ fuel := by omega
        have ih := decimalWidthGo_le_iff fuel (n / 10) hfuel (w - 1) (by omega)
        have hsub : decimalWidthGo fuel (n / 10) + 1 ≤ w ↔ decimalWidthGo fuel (n / 10) ≤ w - 1 := by
          omega
        rw [hsub, ih, Nat.div_lt_iff_lt_mul (by norm_num : (0:Nat) < 10)]
        have hpow : 10 ^ (w - 1) * 10 = 10 ^ w := by
          rw [← pow_succ]
          congr 1
          omega
        rw [hpow]

theorem decimalWidth_le_iff {n w : Nat} (hw : 1 ≤ w) : decimalWidth n ≤ w ↔ n < 10 ^ w :=
  decimalWidthGo_le_iff n n (le_refl n) w hw

/-- On a natural number small enough for the width, Python zero-padding is
exactly the fixed-width digit string. -/
theorem pyZeroPad_eq_padDigits {w n : Nat} (hw : 1 ≤ w) (hn : n < 10 ^ w) :
    pyZeroPad w (n : Int) = ⟨padDigits w n⟩ := by
  unfold pyZeroPad
  rw [if_neg (by omega)]
  congr 1
  rw [Int.natAbs_ofNat]
  congr 1
  have : decimalWidth n ≤ w := (decimalWidth_le_iff hw).mpr hn
  omega


theorem string_mk_append (l₁ l₂ : List Char) :
    (⟨l₁⟩ ++ ⟨l₂⟩ : String) = ⟨l₁ ++ l₂⟩ := rfl

theorem isoformat_eq {y m d : Nat} (hy : y < 10000) (hm : m < 100) (hd : d < 100) :
    (ParsedDate.mk y m d).isoformat = ⟨dateData y m d⟩ := by
  unfold ParsedDate.isoformat
  rw [pyZeroPad_eq_padDigits (by norm_num) hy, pyZeroPad_eq_padDigits (by norm_num) hm,
    pyZeroPad_eq_padDigits (by norm_num) hd]
  show (⟨_⟩ : String) = ⟨_⟩
  simp [dateData]

theorem monthStart_eq {y m : Nat} (hy : y < 10000) (hm : m < 100) :
    monthStart (y : Int) (m : Int) = ⟨dateData y m 1⟩ := by
  unfold monthStart
  rw [pyZeroPad_eq_padDigits (by norm_num) hy, pyZeroPad_eq_padDigits (by norm_num) hm]
  show (⟨_⟩ : String) = ⟨_⟩
  simp [dateData]
  rfl

theorem monthEnd_eq {y m : Nat} (hy : y < 10000) (hroll : m = 12 → y + 1 < 10000)
    (hm2 : m ≤ 12) :
    monthEnd (y : Int) (m : Int) =
      ⟨if m = 12 then dateData (y + 1) 1 1 else dateData y (m + 1) 1⟩ := by
  unfold monthEnd
  by_cases h : m = 12
  · subst h
    rw [if_pos (by norm_num), if_pos rfl]
    have hy1 : ((y : Int) + 1) = ((y + 1 : Nat) : Int) := by push_cast; ring
    have h1 : (1 : Int) = ((1 : Nat) : Int) := rfl
    rw [hy1, h1, monthStart_eq (hroll rfl) (by norm_num)]
  · have hne : (m : Int) ≠ 12 := by
      intro hc
      exact h (by exact_mod_cast hc)
    rw [if_neg hne, if_neg h]
    have : ((m : Int) + 1) = ((m + 1 : Nat) : Int) := by push_cast; ring
    rw [this, monthStart_eq (by omega) (by omega)]

theorem listLtB_cons_same (c : Char) (A B : List Char) :
    listLtB (c :: A) (c :: B) = listLtB A B := by
  simp [listLtB, charLtB]

theorem listLtB_padDigits {w a b : Nat} (ha : a < 10 ^ w) (hb : b < 10 ^ w) :
    (listLtB (padDigits w a) (padDigits w b) = true ↔ a < b) := by
  have h := listLtB_padDigits_append w a b [] [] ha hb
  rw [List.append_nil, List.append_nil] at h
  rw [h]
  simp [listLtB]

theorem padDigits_inj {w a b : Nat} (ha : a < 10 ^ w) (hb : b < 10 ^ w)
    (h : padDigits w a = padDigits w b) : a = b := by
  have h' : padDigits w a ++ [] = padDigits w b ++ [] := by rw [h]
  exact (padDigits_append_inj ha hb h').1

theorem listLtB_dateData {y m d y' m' d' : Nat} (hy : y < 10000) (hm : m < 100)
    (hd : d < 100) (hy' : y' < 10000) (hm' : m' < 100) (hd' : d' < 100) :
    (listLtB (dateData y m d) (dateData y' m' d') = true ↔
      (y < y' ∨ (y = y' ∧ (m < m' ∨ (m = m' ∧ d < d'))))) := by
  unfold dateData
  rw [listLtB_padDigits_append 4 y y' _ _ hy hy', listLtB_cons_same,
    listLtB_padDigits_append 2 m m' _ _ hm hm', listLtB_cons_same,
    listLtB_padDigits hd hd']

theorem dateData_inj {y m d y' m' d' : Nat} (hy : y < 10000) (hm : m < 100)
    (hd : d < 100) (hy' : y' < 10000) (hm' : m' < 100) (hd' : d' < 100) :
    (dateData y m d = dateData y' m' d' ↔ (y = y' ∧ m = m' ∧ d = d')) := by
  constructor
  · intro h
    unfold dateData at h
    obtain ⟨h₁, h₂⟩ := padDigits_append_inj hy hy' h
    obtain ⟨h₃, h₄⟩ := padDigits_append_inj hm hm' (List.cons_injective h₂)
    exact ⟨h₁, h₃, padDigits_inj hd hd' (List.cons_injective h₄)⟩
  · rintro ⟨rfl, rfl, rfl⟩
    rfl


theorem dateTripleLE_iff_not_lt (a b : Nat × Nat × Nat) :
    dateTripleLE a b ↔ ¬ dateTripleLT b a := by
  obtain ⟨a₁, a₂, a₃⟩ := a
  obtain ⟨b₁, b₂, b₃⟩ := b
  simp only [dateTripleLE, dateTripleLT, Prod.mk.injEq]
  omega

/-- The summary's string-comparison WHERE clause agrees with the
specification's calendar interval, for 4-digit years below the rollover
overflow and zero-padded date components. -/
theorem inMonthRange_iff {year month y m d : Nat}
    (hyr : year < 10000) (hroll : month = 12 → year + 1 < 10000) (hm2 : month ≤ 12)
    (hy : y < 10000) (hm : m < 100) (hd : d < 100) :
    (inMonthRange (year : Int) (month : Int) ⟨dateData y m d⟩ = true ↔
      inMonthInterval year month (y, m, d)) := by
  unfold inMonthRange inMonthInterval
  rw [Bool.and_eq_true, monthStart_eq (by omega) (by omega),
    monthEnd_eq hyr hroll hm2]
  have hle : (strLeB ⟨dateData year month 1⟩ ⟨dateData y m d⟩ = true ↔
      dateTripleLE (year, month, 1) (y, m, d)) := by
    unfold strLeB strLtB
    rw [Bool.not_eq_true', Bool.eq_false_iff, Ne,
      listLtB_dateData hy hm hd (by omega) (by omega) (by omega),
      dateTripleLE_iff_not_lt]
    unfold dateTripleLT
    simp
  rw [hle]
  by_cases h12 : month = 12
  · subst h12
    rw [if_pos rfl, if_pos rfl]
    have hlt : (strLtB ⟨dateData y m d⟩ ⟨dateData (year + 1) 1 1⟩ = true ↔
        dateTripleLT (y, m, d) (year + 1, 1, 1)) := by
      unfold strLtB
      rw [listLtB_dateData hy hm hd (by omega) (by omega) (by omega)]
      unfold dateTripleLT
      simp
    rw [hlt]
  · rw [if_neg h12, if_neg h12]
    have hlt : (strLtB ⟨dateData y m d⟩ ⟨dateData year (month + 1) 1⟩ = true ↔
        dateTripleLT (y, m, d) (year, month + 1, 1)) := by
      unfold strLtB
      rw [listLtB_dateData hy hm hd (by omega) (by omega) (by omega)]
      unfold dateTripleLT
      simp
    rw [hlt]

theorem mem_monthTxns {db : BudgetDB} {t : Txn} {year month : Int} :
    t ∈ monthTxns db year month ↔
      t ∈ db.transactions ∧ inMonthRange year month t.date = true := by
  unfold monthTxns
  rw [List.mem_filter]

/-- C1 (amended: years restricted to 1..9998): for every such year and month
1..12, the summary query aggregates exactly the transactions whose
zero-padded ISO date lies in the half-open calendar interval
`[year-month-01, first of next month)`, with month 12 rolling to January of
`year + 1`; consequently `year-12-31` is in the December range and not in
the next January range, and `(year+1)-01-01` is in the next January range
and not in the December range. -/
theorem C1_month_interval (year month : Nat) (h1 : 1 ≤ year) (h2 : year ≤ 9998)
    (_h3 : 1 ≤ month) (h4 : month ≤ 12) :
    (∀ (db : BudgetDB) (t : Txn) (y m d : Nat), y < 10000 → m < 100 → d < 100 →
      t.date = (ParsedDate.mk y m d).isoformat →
      (t ∈ monthTxns db (year : Int) (month : Int) ↔
        t ∈ db.transactions ∧ inMonthInterval year month (y, m, d))) ∧
    inMonthRange (year : Int) ((12 : Nat) : Int)
      (ParsedDate.mk year 12 31).isoformat = true ∧
    inMonthRange ((year + 1 : Nat) : Int) ((1 : Nat) : Int)
      (ParsedDate.mk year 12 31).isoformat = false ∧
    inMonthRange ((year + 1 : Nat) : Int) ((1 : Nat) : Int)
      (ParsedDate.mk (year + 1) 1 1).isoformat = true ∧
    inMonthRange (year : Int) ((12 : Nat) : Int)
      (ParsedDate.mk (year + 1) 1 1).isoformat = false := by
  refine ⟨?_, ?_, ?_, ?_, ?_⟩
  · intro db t y m d hy hm hd hdate
    rw [mem_monthTxns, hdate, isoformat_eq hy hm hd,
      inMonthRange_iff (by omega) (by omega) h4 hy hm hd]
  · rw [isoformat_eq (by omega) (by norm_num) (by norm_num),
      inMonthRange_iff (by omega) (by omega) (by norm_num) (by omega) (by norm_num)
        (by norm_num)]
    refine ⟨.inl (.inr ⟨rfl, .inr ⟨rfl, show (1 : Nat) < 31 by omega⟩⟩), ?_⟩
    rw [if_pos rfl]
    exact .inl (show year < year + 1 by omega)
  · rw [Bool.eq_false_iff, Ne, isoformat_eq (by omega) (by norm_num) (by norm_num),
      inMonthRange_iff (by omega) (by omega) (by norm_num) (by omega) (by norm_num)
        (by norm_num)]
    simp only [inMonthInterval, dateTripleLE, dateTripleLT, Prod.mk.injEq]
    intro hc
    rcases hc with ⟨hc₁, -⟩
    omega
  · rw [isoformat_eq (by omega) (by norm_num) (by norm_num),
      inMonthRange_iff (by omega) (by omega) (by norm_num) (by omega) (by norm_num)
        (by norm_num)]
    refine ⟨.inr rfl, ?_⟩
    rw [if_neg (by omega)]
    exact .inr ⟨rfl, .inl (show (1 : Nat) < 2 by omega)⟩
  · rw [Bool.eq_false_iff, Ne, isoformat_eq (by omega) (by norm_num) (by norm_num),
      inMonthRange_iff (by omega) (by omega) (by norm_num) (by omega) (by norm_num)
        (by norm_num)]
    simp only [inMonthInterval, dateTripleLE, dateTripleLT, if_pos, Prod.mk.injEq]
    intro hc
    rcases hc with ⟨-, hc₂⟩
    omega

/-- Witness for C1: the hypotheses hold at year 2024, month 3, and the
December/January boundary conjunct follows by applying the theorem. -/
theorem C1_month_interval_witness :
    ((1 : Nat) ≤ 2024 ∧ (2024 : Nat) ≤ 9998 ∧ (1 : Nat) ≤ 3 ∧ (3 : Nat) ≤ 12) ∧
      inMonthRange ((2024 : Nat) : Int) ((12 : Nat) : Int)
        (ParsedDate.mk 2024 12 31).isoformat = true :=
  ⟨by decide,
   (C1_month_interval 2024 3 (by decide) (by decide) (by decide) (by decide)).2.1⟩


/-- Counterexample to C1 as stated (universally over all years): at
year 9999, month 12, the rollover formats the upper bound as
`"10000-01-01"`, which precedes `"9999-12-31"` in the TEXT order, so a
transaction dated `9999-12-31` — squarely inside the claimed half-open
calendar interval — is aggregated by no month: the filtered rows and the
summary are both empty. -/
theorem C1_counterexample :
    (⟨1, "9999-12-31", 5, "year end", none, .expense⟩ : Txn) ∈
        c1OverflowDb.transactions ∧
    "9999-12-31" = (ParsedDate.mk 9999 12 31).isoformat ∧
    inMonthInterval 9999 12 (9999, 12, 31) ∧
    monthTxns c1OverflowDb 9999 12 = [] ∧
    monthly_summary c1OverflowDb 9999 12 = [] := by
  refine ⟨by decide, by decide, ?_, by decide, by decide⟩
  simp only [inMonthInterval, dateTripleLE, dateTripleLT, Prod.mk.injEq]
  norm_num

/-- C9: the Schema Manager's initialize is idempotent — a second run
leaves the table definitions exactly as after the first, and no stored
row of either table is removed or altered by a run. -/
theorem C9_initialize_schema_idempotent (db : BudgetDB) :
    initialize_schema (initialize_schema db) = initialize_schema db ∧
    (initialize_schema db).categories = db.categories ∧
    (initialize_schema db).transactions = db.transactions ∧
    (initialize_schema db).categoriesDef =
      some (db.categoriesDef.getD categoriesTableDef) ∧
    (initialize_schema db).transactionsDef =
      some (db.transactionsDef.getD transactionsTableDef) := by
  refine ⟨?_, rfl, rfl, rfl, rfl⟩
  unfold initialize_schema
  simp

/-- C10: a category filter of `0` and empty-string date filters are
falsy in Python, so the corresponding WHERE clause is skipped: the
listing (and hence the export) equals the query without that filter. -/
theorem C10_falsy_filters_dropped (db : BudgetDB) (category_id : Option Int)
    (start_date end_date : Option String) :
    list_transactions db (some 0) start_date end_date =
        list_transactions db none start_date end_date ∧
    list_transactions db category_id (some "") end_date =
        list_transactions db category_id none end_date ∧
    list_transactions db category_id start_date (some "") =
        list_transactions db category_id start_date none ∧
    export_to_csv db (some 0) start_date end_date =
        export_to_csv db none start_date end_date ∧
    export_to_csv db category_id (some "") end_date =
        export_to_csv db category_id none end_date ∧
    export_to_csv db category_id start_date (some "") =
        export_to_csv db category_id start_date none :=
  ⟨rfl, rfl, rfl, rfl, rfl, rfl⟩

/-- C3: the export consists of exactly the fixed header row
`ID,Date,Amount,Description,CategoryID,Type` followed by the rows
`list_transactions` returns for the same filters — same values, same
order — and of the header alone when the listing is empty. -/
theorem C3_export_refines_listing (db : BudgetDB) (category_id : Option Int)
    (start_date end_date : Option String) :
    (export_to_csv db category_id start_date end_date).1 = csvHeader ∧
    String.intercalate "," csvHeader = "ID,Date,Amount,Description,CategoryID,Type" ∧
    (export_to_csv db category_id start_date end_date).2 =
      list_transactions db category_id start_date end_date ∧
    (list_transactions db category_id start_date end_date = [] →
      (export_to_csv db category_id start_date end_date).2 = []) :=
  ⟨rfl, by decide, rfl, fun h => h⟩

theorem mem_list_transactions {db : BudgetDB} {t : Txn} {category_id : Option Int}
    {start_date end_date : Option String} :
    t ∈ list_transactions db category_id start_date end_date ↔
      t ∈ db.transactions ∧ rowFilter category_id start_date end_date t = true := by
  unfold list_transactions
  rw [List.mem_insertionSort, List.mem_filter]

/-- C2: when `delete_category` actually removed a row, no transaction row
disappears from the listing, every transaction that referenced the
deleted id is listed with a null category, every other transaction is
listed unchanged, and no listed transaction still references the id. -/
theorem C2_delete_category_nulls_refs (db : BudgetDB) (c : Int)
    (h : (delete_category db c).1 = true) :
    ((delete_category db c).2.transactions.length = db.transactions.length) ∧
    (∀ t ∈ db.transactions, t.category_id = some c →
      { t with category_id := none } ∈
        list_transactions (delete_category db c).2 none none none) ∧
    (∀ t ∈ db.transactions, t.category_id ≠ some c →
      t ∈ list_transactions (delete_category db c).2 none none none) ∧
    (∀ t' ∈ list_transactions (delete_category db c).2 none none none,
      t'.category_id ≠ some c) := by
  unfold delete_category at *
  by_cases hex : db.categories.any (fun c' => c'.id = c) = true
  · rw [if_pos hex] at *
    refine ⟨List.length_map _ _, ?_, ?_, ?_⟩
    · intro t ht href
      rw [mem_list_transactions]
      refine ⟨?_, rfl⟩
      have : clearCategoryRef c t = { t with category_id := none } := by
        unfold clearCategoryRef
        rw [if_pos href]
      exact this ▸ List.mem_map_of_mem (clearCategoryRef c) ht
    · intro t ht href
      rw [mem_list_transactions]
      refine ⟨?_, rfl⟩
      have : clearCategoryRef c t = t := by
        unfold clearCategoryRef
        rw [if_neg href]
      exact this ▸ List.mem_map_of_mem (clearCategoryRef c) ht
    · intro t' ht'
      rw [mem_list_transactions] at ht'
      obtain ⟨ht', -⟩ := ht'
      obtain ⟨t, -, rfl⟩ := List.mem_map.mp ht'
      unfold clearCategoryRef
      by_cases href : t.category_id = some c
      · rw [if_pos href]
        simp
      · rw [if_neg href]
        exact href
  · rw [if_neg hex] at h
    exact absurd h (by simp)


/-- Witness for C2: deleting category 1 of `c2Db` returns true, and the
transaction that referenced it is subsequently listed with a null
category. -/
theorem C2_delete_category_nulls_refs_witness :
    (delete_category c2Db 1).1 = true ∧
      (⟨1, "2024-03-15", 5, "groceries", none, .expense⟩ : Txn) ∈
        list_transactions (delete_category c2Db 1).2 none none none :=
  ⟨rfl, (C2_delete_category_nulls_refs c2Db 1 rfl).2.1
    ⟨1, "2024-03-15", 5, "groceries", some 1, .expense⟩ (by decide) rfl⟩

/-- C6: adding a not-yet-present category name strips it, persists it
under a freshly assigned id, after which the listing contains that name
exactly once; a second add of the same name fails with the integrity
error (the spec's DuplicateCategory) and leaves the store — hence the
listing — unchanged. -/
theorem C6_add_category_unique (db : BudgetDB) (n : String)
    (hfresh : ∀ c ∈ db.categories, c.name ≠ pyStrip n)
    (hwf : ∀ c ∈ db.categories, c.id < db.nextCategoryId) :
    (add_category db n).1 = .ok db.nextCategoryId ∧
    (∀ c ∈ db.categories, c.id ≠ db.nextCategoryId) ∧
    (⟨db.nextCategoryId, pyStrip n⟩ : Category) ∈ (add_category db n).2.categories ∧
    ((list_categories (add_category db n).2).countP
        (fun c => c.name = pyStrip n) = 1) ∧
    (add_category (add_category db n).2 n).1 = .error .integrityError ∧
    (add_category (add_category db n).2 n).2 = (add_category db n).2 := by
  have hany : db.categories.any (fun c => c.name = pyStrip n) = false := by
    rw [List.any_eq_false]
    intro c hc
    simpa using hfresh c hc
  have h1 : add_category db n =
      (.ok db.nextCategoryId,
       { db with categories := db.categories ++ [⟨db.nextCategoryId, pyStrip n⟩],
                 nextCategoryId := db.nextCategoryId + 1 }) := by
    unfold add_category
    rw [if_neg (by simp [hany])]
  have hmem : (⟨db.nextCategoryId, pyStrip n⟩ : Category) ∈
      db.categories ++ [(⟨db.nextCategoryId, pyStrip n⟩ : Category)] := by simp
  have hany2 : (db.categories ++ [(⟨db.nextCategoryId, pyStrip n⟩ : Category)]).any
      (fun c => c.name = pyStrip n) = true := by
    exact List.any_eq_true.mpr ⟨(⟨db.nextCategoryId, pyStrip n⟩ : Category), hmem, by simp⟩
  have hc0 : db.categories.countP (fun c => c.name = pyStrip n) = 0 :=
    List.countP_eq_zero.mpr (fun c hc => by simpa using hfresh c hc)
  refine ⟨by rw [h1], ?_, ?_, ?_, ?_, ?_⟩
  · intro c hc heq
    have := hwf c hc
    omega
  · rw [h1]
    exact hmem
  · rw [h1]
    unfold list_categories
    rw [(List.perm_insertionSort catNameLE _).countP_eq, List.countP_append, hc0]
    simp
  · rw [h1]
    unfold add_category
    rw [if_pos hany2]
  · rw [h1]
    unfold add_category
    rw [if_pos hany2]


/-- Witness for C6: on the empty store, adding `" Food "` yields id 1 and
a second add of the same input is rejected. -/
theorem C6_add_category_unique_witness :
    (add_category c6Db " Food ").1 = .ok 1 ∧
      (add_category (add_category c6Db " Food ").2 " Food ").1 =
        .error .integrityError :=
  ⟨(C6_add_category_unique c6Db " Food " (by decide) (by decide)).1,
   (C6_add_category_unique c6Db " Food " (by decide) (by decide)).2.2.2.2.1⟩

/-- C7: the signed-input path stores the absolute value of the signed
amount and carries the direction in the type tag (`income` iff the input
is nonnegative); every stored amount stays nonnegative. -/
theorem C7_signed_amount_invariant (db : BudgetDB) (date_str : String) (v : ℚ)
    (desc : String) (cat : Option Int)
    (hnn : ∀ t ∈ db.transactions, 0 ≤ t.amount) :
    (∀ t ∈ (add_transaction_flow db date_str v desc cat).2.transactions,
      0 ≤ t.amount) ∧
    (∀ i, (add_transaction_flow db date_str v desc cat).1 = .ok i →
      i = db.nextTxnId ∧
      ∃ d, parseDate date_str = some d ∧
        (add_transaction_flow db date_str v desc cat).2.transactions =
          db.transactions ++
            [⟨db.nextTxnId, d.isoformat, |v|, pyStrip desc, cat,
              if 0 ≤ v then .income else .expense⟩] ∧
        0 ≤ |v|) := by
  cases hp : parseDate date_str with
  | none =>
    have heq : add_transaction_flow db date_str v desc cat =
        (.error .invalidDate, db) := by
      unfold add_transaction_flow
      rw [hp]
    rw [heq]
    refine ⟨hnn, ?_⟩
    intro i hi
    simp at hi
  | some d =>
    by_cases hv : validCategoryRef db cat = true
    · have heq : add_transaction_flow db date_str v desc cat =
          (.ok db.nextTxnId,
           { db with
             transactions := db.transactions ++
               [⟨db.nextTxnId, d.isoformat, |v|, pyStrip desc, cat,
                 if 0 ≤ v then .income else .expense⟩],
             nextTxnId := db.nextTxnId + 1 }) := by
        unfold add_transaction_flow
        rw [hp]
        show (((add_transaction db d.isoformat |v| desc cat
              (if 0 ≤ v then .income else .expense)).1.mapError
                fun _ => FlowError.invalidCategoryRef),
            (add_transaction db d.isoformat |v| desc cat
              (if 0 ≤ v then .income else .expense)).2) = _
        unfold add_transaction
        rw [if_pos hv]
        rfl
      rw [heq]
      refine ⟨?_, ?_⟩
      · intro t ht
        rw [List.mem_append, List.mem_singleton] at ht
        rcases ht with ht | rfl
        · exact hnn t ht
        · exact abs_nonneg v
      · intro i hi
        simp only [Except.ok.injEq] at hi
        exact ⟨hi.symm, d, rfl, rfl, abs_nonneg v⟩
    · have heq : add_transaction_flow db date_str v desc cat =
          (.error .invalidCategoryRef, db) := by
        unfold add_transaction_flow
        rw [hp]
        show (((add_transaction db d.isoformat |v| desc cat
              (if 0 ≤ v then .income else .expense)).1.mapError
                fun _ => FlowError.invalidCategoryRef),
            (add_transaction db d.isoformat |v| desc cat
              (if 0 ≤ v then .income else .expense)).2) = _
        unfold add_transaction
        rw [if_neg hv]
        rfl
      rw [heq]
      refine ⟨hnn, ?_⟩
      intro i hi
      simp at hi


/-- Witness for C7: recording the signed input `-85/2` (i.e. `-42.50`)
keeps every stored amount nonnegative. -/
theorem C7_signed_amount_invariant_witness :
    (∀ t ∈ c7Db.transactions, 0 ≤ t.amount) ∧
      (∀ t ∈ (add_transaction_flow c7Db "2024-03-15" (-85/2) "Groceries"
          (some 1)).2.transactions, 0 ≤ t.amount) :=
  ⟨by decide,
   (C7_signed_amount_invariant c7Db "2024-03-15" (-85/2) "Groceries" (some 1)
     (by decide)).1⟩

/-- C8: a date string that fails calendar parsing makes the flow fail with
InvalidDate before any store mutation: the whole store comes back
unchanged. -/
theorem C8_invalid_date_no_mutation (db : BudgetDB) (date_str : String) (v : ℚ)
    (desc : String) (cat : Option Int) (h : parseDate date_str = none) :
    add_transaction_flow db date_str v desc cat = (.error .invalidDate, db) := by
  unfold add_transaction_flow
  rw [h]

/-- Witness for C8: `"2024-02-30"` is well-formed but not a calendar date;
the flow rejects it and returns the store unchanged. -/
theorem C8_invalid_date_no_mutation_witness :
    parseDate "2024-02-30" = none ∧
      add_transaction_flow c7Db "2024-02-30" 5 "x" none =
        (.error .invalidDate, c7Db) :=
  ⟨by decide, C8_invalid_date_no_mutation c7Db "2024-02-30" 5 "x" none (by decide)⟩

theorem string_data_inj {s₁ s₂ : String} (h : s₁.data = s₂.data) : s₁ = s₂ := by
  cases s₁
  cases s₂
  exact congrArg String.mk h

theorem listLtB_nil_right : ∀ l : List Char, listLtB l [] = false
  | [] => rfl
  | _ :: _ => rfl

theorem strLeB_empty_left (s : String) : strLeB "" s = true := by
  unfold strLeB strLtB
  rw [show ("" : String).data = [] from rfl, listLtB_nil_right]
  rfl

instance txnRecencyLE.total : IsTotal Txn txnRecencyLE where
  total t₁ t₂ := by
    rcases listLtB_trichotomy t₁.date.data t₂.date.data with h | h | h
    · exact .inr (.inl h)
    · have hd : t₁.date = t₂.date := string_data_inj h
      rcases le_total t₁.id t₂.id with h' | h'
      · exact .inr (.inr ⟨hd, h'⟩)
      · exact .inl (.inr ⟨hd.symm, h'⟩)
    · exact .inl (.inl h)

instance txnRecencyLE.trans : IsTrans Txn txnRecencyLE where
  trans t₁ t₂ t₃ h₁ h₂ := by
    rcases h₁ with h₁ | ⟨e₁, i₁⟩ <;> rcases h₂ with h₂ | ⟨e₂, i₂⟩
    · exact .inl (listLtB_trans _ _ _ h₂ h₁)
    · exact .inl (by rw [e₂]; exact h₁)
    · exact .inl (by rw [← e₁]; exact h₂)
    · exact .inr ⟨e₂.trans e₁, i₂.trans i₁⟩


/-- C4 (amended: category filter `0` and an empty-string end-date are
excluded — they are falsy in Python and get dropped instead of matched
exactly): the listing is a permutation of the rows passing the WHERE
clause, the WHERE clause agrees pointwise with the specification's filter
semantics, and the result is sorted by date descending with ties broken
by id descending. A supplied empty-string start-date needs no exclusion:
the vacuous bound `"" <= date` it would impose holds of every date. -/
theorem C4_list_transactions_filter_order (db : BudgetDB)
    (category_id : Option Int) (start_date end_date : Option String)
    (hc : category_id ≠ some 0) (he : end_date ≠ some "") :
    (list_transactions db category_id start_date end_date).Perm
      (db.transactions.filter (rowFilter category_id start_date end_date)) ∧
    (∀ t : Txn, rowFilter category_id start_date end_date t = true ↔
      specFilter category_id start_date end_date t) ∧
    List.Sorted txnRecencyLE
      (list_transactions db category_id start_date end_date) := by
  refine ⟨List.perm_insertionSort _ _, ?_, List.sorted_insertionSort _ _⟩
  intro t
  have hcomp1 : catClause category_id t = true ↔
      (∀ cid, category_id = some cid → t.category_id = some cid) := by
    cases category_id with
    | none => simp [catClause]
    | some cid =>
      have h0 : cid ≠ 0 := fun h => hc (by rw [h])
      show (if cid ≠ 0 then decide (t.category_id = some cid) else true) = true ↔ _
      rw [if_pos h0]
      constructor
      · intro h cid' hcid'
        injection hcid' with h''
        subst h''
        exact of_decide_eq_true h
      · intro h
        exact decide_eq_true (h cid rfl)
  have hcomp2 : startClause start_date t = true ↔
      (∀ s, start_date = some s → strLeB s t.date = true) := by
    cases start_date with
    | none => simp [startClause]
    | some s =>
      show (if s ≠ "" then strLeB s t.date else true) = true ↔ _
      by_cases h0 : s = ""
      · subst h0
        rw [if_neg (by simp)]
        constructor
        · intro _ s' hs'
          injection hs' with h''
          subst h''
          exact strLeB_empty_left t.date
        · intro _
          rfl
      · rw [if_pos h0]
        constructor
        · intro h s' hs'
          injection hs' with h''
          subst h''
          exact h
        · intro h
          exact h s rfl
  have hcomp3 : endClause end_date t = true ↔
      (∀ e, end_date = some e → strLeB t.date e = true) := by
    cases end_date with
    | none => simp [endClause]
    | some e =>
      have h0 : e ≠ "" := fun h => he (by rw [h])
      show (if e ≠ "" then strLeB t.date e else true) = true ↔ _
      rw [if_pos h0]
      constructor
      · intro h e' he'
        injection he' with h''
        subst h''
        exact h
      · intro h
        exact h e rfl
  unfold rowFilter specFilter
  rw [Bool.and_eq_true, Bool.and_eq_true, hcomp1, hcomp2, hcomp3]
  tauto


/-- Witness for C4: at concrete non-degenerate filters the hypotheses
hold and the returned listing is sorted. -/
theorem C4_list_transactions_filter_order_witness :
    ((some (1 : Int) : Option Int) ≠ some 0 ∧
      (some "2024-03-20" : Option String) ≠ some "") ∧
      List.Sorted txnRecencyLE
        (list_transactions c4Db (some 1) (some "2024-01-01") (some "2024-03-20")) :=
  ⟨⟨by decide, by decide⟩,
   (C4_list_transactions_filter_order c4Db (some 1) (some "2024-01-01")
     (some "2024-03-20") (by decide) (by decide)).2.2⟩

/-- Counterexample to C4 as stated (over all supplied filter values): a
supplied category filter of `0` is dropped by Python truthiness, so a
transaction with a different category is returned anyway, and a supplied
empty-string end-date is dropped although the claimed inclusive bound
`date <= ""` would exclude every nonempty date. -/
theorem C4_counterexample :
    ((⟨1, "2024-03-15", 5, "groceries", some 1, .expense⟩ : Txn) ∈
        list_transactions c4Db (some 0) none none ∧
      ¬ specFilter (some 0) none none
          ⟨1, "2024-03-15", 5, "groceries", some 1, .expense⟩) ∧
    ((⟨1, "2024-03-15", 5, "groceries", some 1, .expense⟩ : Txn) ∈
        list_transactions c4Db none none (some "") ∧
      ¬ specFilter none none (some "")
          ⟨1, "2024-03-15", 5, "groceries", some 1, .expense⟩) := by
  refine ⟨⟨by decide, ?_⟩, ⟨by decide, ?_⟩⟩
  · intro h
    exact absurd (h.1 0 rfl) (by decide)
  · intro h
    exact absurd (h.2.2 "" rfl) (by decide)

/-- C5: the monthly summary has one row per distinct resolved category
name that occurs among the month's transactions (transactions with a null
or dangling category reference all resolving to the single `none`
bucket), each row's two totals sum the amounts of its group's income
resp. expense rows (an absent kind summing to zero over the empty
group), and an empty month yields an empty summary. -/
theorem C5_monthly_summary_grouping (db : BudgetDB) (year month : Int) :
    ((monthly_summary db year month).map SummaryRow.name).Nodup ∧
    (∀ k, k ∈ (monthly_summary db year month).map SummaryRow.name ↔
      ∃ t ∈ monthTxns db year month, resolvedName db t = k) ∧
    (∀ row ∈ monthly_summary db year month,
      row.income_total =
        (((monthTxns db year month).filter fun t =>
          decide (resolvedName db t = row.name) && decide (t.type = .income)).map
            Txn.amount).sum ∧
      row.expense_total =
        (((monthTxns db year month).filter fun t =>
          decide (resolvedName db t = row.name) && decide (t.type = .expense)).map
            Txn.amount).sum) ∧
    (∀ t ∈ monthTxns db year month,
      (t.category_id = none ∨ ∀ c ∈ db.categories, some c.id ≠ t.category_id) →
        resolvedName db t = none) ∧
    (monthTxns db year month = [] → monthly_summary db year month = []) := by
  refine ⟨?_, ?_, ?_, ?_, ?_⟩
  · unfold monthly_summary
    rw [List.map_map]
    have : SummaryRow.name ∘
        (fun k => (⟨k, groupTotal .income db (monthTxns db year month) k,
          groupTotal .expense db (monthTxns db year month) k⟩ : SummaryRow)) = id := by
      funext k
      rfl
    rw [this, List.map_id]
    exact List.nodup_dedup _
  · intro k
    unfold monthly_summary
    rw [List.map_map]
    have : SummaryRow.name ∘
        (fun k => (⟨k, groupTotal .income db (monthTxns db year month) k,
          groupTotal .expense db (monthTxns db year month) k⟩ : SummaryRow)) = id := by
      funext k
      rfl
    rw [this, List.map_id, List.mem_dedup, List.mem_map]
  · intro row hrow
    unfold monthly_summary at hrow
    obtain ⟨k, -, rfl⟩ := List.mem_map.mp hrow
    exact ⟨rfl, rfl⟩
  · intro t _ href
    unfold resolvedName
    rcases href with h | h
    · rw [h]
      rfl
    · cases hcid : t.category_id with
      | none => rfl
      | some cid =>
        have hfind : db.categories.find? (fun c => c.id = cid) = none := by
          rw [List.find?_eq_none]
          intro c hc
          have := h c hc
          rw [hcid] at this
          simpa using this
        simp [hfind]
  · intro h
    unfold monthly_summary
    rw [h]
    rfl

end BudgetTracker
